import Mathlib

/-!
Shallow embedding of the `continuous` supervisor (src/continuous.go).

The supervisor keeps a set of registered servers listening and reacts to
operating-system signals: TERM (immediate stop), QUIT (graceful stop),
USR1 (toggle listening), USR2 (fork-exec an upgraded successor),
HUP (upgrade then graceful stop) and CHLD (reap the successor and recover
the pid file).  The embedding models the `Cont` structure field by field,
the private helpers `stop`, `gracefulStop`, `closeListeners`, `serve`,
`upgrade`, `writePid`, the SIGCHLD branch, and the public `Serve` entry
point as a function over a queue of pending signals.  External effects
(bind results, fork-exec, waitpid, pid-file writes) are supplied by an
oracle environment `Env`; the filesystem is an association list from paths
to contents.  Closing a Go channel that is nil or already closed is a
runtime panic, modelled by the `Except` error of the helpers.
-/

namespace Continuous

/-- Go error values, identified by their message. -/
abbrev GoErr := String

/-- ContState indicates the state of Cont.  In the Go source this is an
iota enumeration: Running = 0, Ready = 1, Stopped = 2. -/
inductive ContState
  | Running
  | Ready
  | Stopped
deriving DecidableEq, Repr

/-- The Go zero value of `ContState`: the constant whose iota value is 0,
which in the source's declaration order is `Running`. -/
def contStateZero : ContState := ContState.Running

/-- ContState.String from the source. -/
def ContState.string : ContState → String
  | .Running => "running"
  | .Stopped => "stopped"
  | .Ready => "ready"

/-- ListenOn some network and address. -/
structure ListenOn where
  network : String
  address : String
deriving DecidableEq, Repr

/-- State of a Go `chan struct` value as used for `doneChan`: the zero
value is nil; `make` yields an open channel; `close` closes it. -/
inductive Chan
  | nilChan
  | opened
  | closed
deriving DecidableEq, Repr

/-- Go `close(ch)`: closing a nil or an already-closed channel panics. -/
def Chan.close : Chan → Except GoErr Chan
  | .opened => .ok .closed
  | .nilChan => .error "close of nil channel"
  | .closed => .error "close of closed channel"

/-- Observable behaviour of one registered `Continuous` server: the error
results its `Stop` and `GracefulStop` methods return when invoked. -/
structure SrvB where
  stopErr : Option GoErr
  gracefulStopErr : Option GoErr
deriving DecidableEq, Repr

/-- ContServer combines listener, address and a Continuous server.  The
`hasLis` flag records whether the `lis` field has been populated by a
successful `Listen`; its Go zero value is a nil interface. -/
structure ContServer where
  srv : SrvB
  listenOn : ListenOn
  hasLis : Bool
deriving DecidableEq, Repr

/-- Cont keeps your server which implements the Continuous interface.
Fields mirror the Go struct; the gracenet bookkeeping and the logger are
external effects and are not part of the state. -/
structure Cont where
  name : String
  pid : Nat
  child : Nat
  pidfile : String
  cwd : String
  servers : List ContServer
  state : ContState
  doneChan : Chan
deriving DecidableEq, Repr

/-- Filesystem model: association list from path to file contents. -/
abbrev FS := List (String × String)

/-- Look a path up in the filesystem. -/
def FS.lookup : FS → String → Option String
  | [], _ => none
  | (k, v) :: rest, p => if k = p then some v else FS.lookup rest p

/-- Write (create or overwrite) a file. -/
def FS.write : FS → String → String → FS
  | [], p, v => [(p, v)]
  | (k, w) :: rest, p, v =>
    if k = p then (p, v) :: rest else (k, w) :: FS.write rest p v

/-- Remove a path if present. -/
def FS.remove : FS → String → FS
  | [], _ => []
  | (k, w) :: rest, p =>
    if k = p then FS.remove rest p else (k, w) :: FS.remove rest p

/-- Go `os.Rename(src, dst)`: fails when the source does not exist,
otherwise moves the contents, overwriting the destination. -/
def FS.rename (fs : FS) (src dst : String) : Except GoErr FS :=
  match fs.lookup src with
  | none => .error "rename: no such file or directory"
  | some v => .ok ((fs.remove src).write dst v)

/-- Events emitted by the supervisor's transitions, used to state ordering
properties: signalling the done channel, closing the listener of the i-th
registration, invoking Stop or GracefulStop on the i-th server, waiting on
a child pid, and attempting a pid-file rename. -/
inductive Event
  | doneSignal
  | lisClose (i : Nat)
  | srvStop (i : Nat)
  | srvGracefulStop (i : Nat)
  | waitChild (pid : Nat)
  | renameFile (src dst : String)
deriving DecidableEq, Repr

/-- Oracle environment for the external effects: the result of binding a
given endpoint, the result of gracenet's `StartProcess`, the error of
waiting on the child, and the error of writing the pid file. -/
structure Env where
  listen : ListenOn → Option GoErr
  startProcess : Except GoErr Nat
  waitChildErr : Option GoErr
  writePidErr : Option GoErr

/-- Pending signals, in arrival order. -/
inductive Sig
  | term
  | quit
  | usr1
  | usr2
  | hup
  | chld
deriving DecidableEq, Repr

/-- Fan-out of `Stop` over the servers starting at index i: the invocation
events in order and the first error, which short-circuits the loop. -/
def stopGo : Nat → List ContServer → List Event × Option GoErr
  | _, [] => ([], none)
  | i, s :: rest =>
    match s.srv.stopErr with
    | some e => ([Event.srvStop i], some e)
    | none =>
      let r := stopGo (i + 1) rest
      (Event.srvStop i :: r.1, r.2)

/-- Fan-out of `GracefulStop` over the servers starting at index i. -/
def gracefulGo : Nat → List ContServer → List Event × Option GoErr
  | _, [] => ([], none)
  | i, s :: rest =>
    match s.srv.gracefulStopErr with
    | some e => ([Event.srvGracefulStop i], some e)
    | none =>
      let r := gracefulGo (i + 1) rest
      (Event.srvGracefulStop i :: r.1, r.2)

/-- cont.stop(): close the done channel (panics when nil or closed), then
Stop every server in registration order, returning on the first error;
only when every Stop succeeded is the state set to Stopped. -/
def Cont.stop (cont : Cont) : Except GoErr (Cont × List Event × Option GoErr) :=
  match cont.doneChan.close with
  | .error p => .error p
  | .ok dc =>
    let r := stopGo 0 cont.servers
    match r.2 with
    | some e => .ok ({ cont with doneChan := dc }, Event.doneSignal :: r.1, some e)
    | none =>
      .ok ({ cont with doneChan := dc, state := ContState.Stopped },
          Event.doneSignal :: r.1, none)

/-- cont.gracefulStop(): as `stop` but invoking GracefulStop. -/
def Cont.gracefulStop (cont : Cont) :
    Except GoErr (Cont × List Event × Option GoErr) :=
  match cont.doneChan.close with
  | .error p => .error p
  | .ok dc =>
    let r := gracefulGo 0 cont.servers
    match r.2 with
    | some e => .ok ({ cont with doneChan := dc }, Event.doneSignal :: r.1, some e)
    | none =>
      .ok ({ cont with doneChan := dc, state := ContState.Stopped },
        Event.doneSignal :: r.1, none)

/-- Close each registered server's listener from index i on.  A server
whose listener was never installed is a nil interface in Go and closing
it panics; close errors of live listeners are merely logged. -/
def closeLisGo : Nat → List ContServer → Except GoErr (List Event)
  | _, [] => .ok []
  | i, s :: rest =>
    if s.hasLis then
      match closeLisGo (i + 1) rest with
      | .error p => .error p
      | .ok evs => .ok (Event.lisClose i :: evs)
    else .error "close of nil listener"

/-- cont.closeListeners(): close the done channel to notify the accept
loops that the teardown is intentional, then close every listener (close
errors are logged), then reinitialise the gracenet bookkeeping (not part
of the modelled state). -/
def Cont.closeListeners (cont : Cont) : Except GoErr (Cont × List Event) :=
  match cont.doneChan.close with
  | .error p => .error p
  | .ok dc =>
    match closeLisGo 0 cont.servers with
    | .error p => .error p
    | .ok evs => .ok ({ cont with doneChan := dc }, Event.doneSignal :: evs)

/-- Bind loop of cont.serve(): listen on each registration's endpoint in
order; the first bind error aborts the loop, leaving the remaining
servers untouched.  Successfully bound servers get their listener
installed (and their accept loop started, modelled separately). -/
def serveGo (listen : ListenOn → Option GoErr) :
    List ContServer → List ContServer × Option GoErr
  | [] => ([], none)
  | s :: rest =>
    match listen s.listenOn with
    | some e => (s :: rest, some e)
    | none =>
      let r := serveGo listen rest
      ({ s with hasLis := true } :: r.1, r.2)

/-- cont.serve(): make a fresh done channel, bind every endpoint, launch
the accept loops; the state becomes Running only when every bind
succeeded, and the first bind error is returned. -/
def Cont.serve (env : Env) (cont : Cont) : Cont × Option GoErr :=
  let r := serveGo env.listen cont.servers
  match r.2 with
  | some e => ({ cont with doneChan := Chan.opened, servers := r.1 }, some e)
  | none =>
    ({ cont with
        doneChan := Chan.opened
        servers := r.1
        state := ContState.Running }, none)

/-- Body of one accept-loop goroutine once `srv.Serve(lis)` has returned:
when the returned error is non-nil, a non-blocking receive on the done
channel decides whether the error is suppressed (channel closed: the
teardown was intentional) or logged.  Returns whether it logs. -/
def acceptLoopLogs (doneChan : Chan) (serveErr : Option GoErr) : Bool :=
  match serveErr with
  | none => false
  | some _ => decide (doneChan ≠ Chan.closed)

/-- cont.upgrade(): rename the pid file to `<pidfile>.old` (a failure is
only logged), then fork-exec the successor via gracenet; on failure the
error is returned and no child is recorded, on success the child pid is
recorded.  Returns (new cont, new filesystem, returned error). -/
def Cont.upgrade (env : Env) (cont : Cont) (fs : FS) :
    Cont × FS × Option GoErr :=
  let fs2 :=
    match fs.rename cont.pidfile (cont.pidfile ++ ".old") with
    | .ok f => f
    | .error _ => fs
  match env.startProcess with
  | .error e => (cont, fs2, some e)
  | .ok pid => ({ cont with child := pid }, fs2, none)

/-- The SIGCHLD branch of Serve: find and wait on the pid recorded in the
child field, unconditionally (the field may still be its zero value 0 and
no check relates the exited process to a recorded successor); then
attempt to rename `<pidfile>.old` back to `<pidfile>`.  All failures are
only logged.  Returns (cont, new filesystem, emitted events). -/
def Cont.handleChld (cont : Cont) (fs : FS) : Cont × FS × List Event :=
  let evs := [Event.waitChild cont.child,
    Event.renameFile (cont.pidfile ++ ".old") cont.pidfile]
  let fs2 :=
    match fs.rename (cont.pidfile ++ ".old") cont.pidfile with
    | .ok f => f
    | .error _ => fs
  (cont, fs2, evs)

/-- cont.writePid(): write the decimal pid to the pid file (mode 0644). -/
def Cont.writePid (env : Env) (cont : Cont) (fs : FS) : Except GoErr FS :=
  match env.writePidErr with
  | some e => .error e
  | none => .ok (fs.write cont.pidfile (toString cont.pid))

/-- Result of running the signal loop of Serve on a queue of pending
signals: the loop executed `return nil` with some signals left unread,
the goroutine panicked, or the queue was exhausted with the loop still
blocked on the signal channel. -/
inductive LoopResult
  | returned (c : Cont) (fs : FS) (rest : List Sig)
  | panicked (msg : GoErr)
  | waiting (c : Cont) (fs : FS)
deriving DecidableEq, Repr

/-- The signal loop of Serve, driven by the queue of pending signals.
Each branch mirrors the corresponding `case` of the Go switch, including
which results are discarded and which cause `return` or `continue`. -/
def serveLoop (env : Env) : Cont → FS → List Sig → LoopResult
  | c, fs, [] => .waiting c fs
  | c, fs, sig :: rest =>
    match sig with
    | .term =>
      match c.stop with
      | .error p => .panicked p
      | .ok r => .returned r.1 fs rest
    | .quit =>
      match c.gracefulStop with
      | .error p => .panicked p
      | .ok r => .returned r.1 fs rest
    | .usr1 =>
      if c.state = ContState.Running then
        match Cont.closeListeners { c with state := ContState.Ready } with
        | .error p => .panicked p
        | .ok r => serveLoop env r.1 fs rest
      else if c.state = ContState.Ready then
        serveLoop env
          { (Cont.serve env c).1 with state := ContState.Running } fs rest
      else serveLoop env c fs rest
    | .usr2 =>
      let u := Cont.upgrade env c fs
      serveLoop env u.1 u.2.1 rest
    | .hup =>
      let u := Cont.upgrade env c fs
      match u.2.2 with
      | some _ => serveLoop env u.1 u.2.1 rest
      | none =>
        match u.1.gracefulStop with
        | .error p => .panicked p
        | .ok r =>
          match r.2.2 with
          | some _ => serveLoop env r.1 u.2.1 rest
          | none => .returned r.1 u.2.1 rest
    | .chld =>
      let h := c.handleChld fs
      serveLoop env h.1 h.2.1 rest

/-- Result of the public Serve entry point. -/
inductive ServeResult
  | err (e : GoErr)
  | loop (r : LoopResult)
deriving DecidableEq, Repr

/-- The public Serve entry point: write the pid file (an error here is
returned), run the first serve pass with its returned error discarded at
the call site, then enter the signal loop. -/
def Cont.Serve (env : Env) (cont : Cont) (fs : FS) (sigs : List Sig) :
    ServeResult :=
  match cont.writePid env fs with
  | .error e => .err e
  | .ok fs2 => .loop (serveLoop env (Cont.serve env cont).1 fs2 sigs)

/-- Functional options of New. -/
inductive ContOpt
  | procName (name : String)
  | workDir (path : String)
  | pidFile (filename : String)
deriving DecidableEq, Repr

/-- Apply one functional option. -/
def applyOpt (cont : Cont) : ContOpt → Cont
  | .procName n => { cont with name := n }
  | .workDir p => { cont with cwd := p }
  | .pidFile f => { cont with pidfile := f }

/-- New: build the Cont with name = os.Args[0], cwd = os.Getwd(),
pid = os.Getpid(); every remaining field takes its Go zero value.  Then
apply the options, and default the pid file to `<cwd>/<name>.pid` when it
was not set. -/
def New (opts : List ContOpt) (args0 cwd : String) (pid : Nat) : Cont :=
  let cont : Cont :=
    { name := args0, pid := pid, child := 0, pidfile := "", cwd := cwd,
      servers := [], state := contStateZero, doneChan := Chan.nilChan }
  let cont := opts.foldl applyOpt cont
  if cont.pidfile = "" then
    { cont with pidfile := cont.cwd ++ "/" ++ cont.name ++ ".pid" }
  else cont

/-- AddServer: append a registration. -/
def Cont.AddServer (cont : Cont) (srv : SrvB) (listenOn : ListenOn) : Cont :=
  { cont with servers :=
      cont.servers ++ [{ srv := srv, listenOn := listenOn, hasLis := false }] }

/-- Status returns the current state. -/
def Cont.Status (cont : Cont) : ContState := cont.state

/-- Path basename: the component after the last slash (used only to state
what the spec claims about the procname default). -/
def basename (s : String) : String :=
  String.mk (s.data.foldl
    (fun acc c => if c = '/' then [] else acc ++ [c]) [])

/-- Number of servers on which a stop fan-out actually invokes the stop
method, given the list of per-server results: every server before the
first failing one, plus the failing one itself when there is one. -/
def invokedCount (bs : List (Option GoErr)) : Nat :=
  let k := (bs.takeWhile (fun b => b.isNone)).length
  if k = bs.length then k else k + 1

/-- The USR1 toggle on the state component: Running and Ready swap. -/
def flipState : ContState → ContState
  | .Running => .Ready
  | .Ready => .Running
  | .Stopped => .Stopped

/-- Invariant maintained by the signal loop between signals of a run that
has completed a successful first serve pass: the state is Running with an
open done channel, or Ready with a closed one, and every registration has
its listener installed. -/
def GoodCont (c : Cont) : Prop :=
  ((c.state = ContState.Running ∧ c.doneChan = Chan.opened) ∨
    (c.state = ContState.Ready ∧ c.doneChan = Chan.closed)) ∧
  ∀ s ∈ c.servers, s.hasLis = true

/-- A server whose Stop and GracefulStop both succeed, listener installed. -/
def sampleServer : ContServer :=
  { srv := { stopErr := none, gracefulStopErr := none },
    listenOn := { network := "tcp", address := ":8000" }, hasLis := true }

/-- A supervisor mid-loop in state Running with one healthy server. -/
def runningCont : Cont :=
  { name := "app", pid := 42, child := 0, pidfile := "/w/app.pid",
    cwd := "/w", servers := [sampleServer], state := ContState.Running,
    doneChan := Chan.opened }

/-- The same supervisor after a USR1 toggle: Ready, done channel closed. -/
def readyCont : Cont :=
  { runningCont with state := ContState.Ready, doneChan := Chan.closed }

/-- A Running supervisor whose single server fails its Stop method. -/
def errStopCont : Cont :=
  { runningCont with servers :=
      [{ sampleServer with srv :=
          { stopErr := some "stop failed", gracefulStopErr := none } }] }

/-- Filesystem holding the freshly written pid file of `runningCont`. -/
def fs0 : FS := [("/w/app.pid", "42")]

/-- Environment in which every external effect succeeds. -/
def envOk : Env :=
  { listen := fun _ => none, startProcess := .ok 99,
    waitChildErr := none, writePidErr := none }

/-- Environment in which fork-exec of the successor fails. -/
def envForkFail : Env :=
  { listen := fun _ => none,
    startProcess := .error "fork/exec ./app: no such file or directory",
    waitChildErr := none, writePidErr := none }

/-- Environment in which every bind fails with address-in-use. -/
def envBindFail : Env :=
  { listen := fun _ => some "listen tcp :8000: bind: address already in use",
    startProcess := .ok 99, waitChildErr := none, writePidErr := none }

/-- A freshly constructed supervisor with one registered server, before
Serve: the concrete input on which the initial bind failure is examined. -/
def c1Cont : Cont :=
  (New [] "app" "/w" 42).AddServer
    { stopErr := none, gracefulStopErr := none }
    { network := "tcp", address := ":8000" }

/-- A freshly constructed supervisor with no registered servers, used for
the pid-file examination around a failed upgrade. -/
def c3Cont : Cont := New [] "app" "/w" 42

/-- The functional options never touch the state, child, pid, servers or
done-channel fields. -/
theorem foldl_applyOpt_fields (opts : List ContOpt) :
    ∀ c : Cont, (opts.foldl applyOpt c).state = c.state ∧
      (opts.foldl applyOpt c).child = c.child ∧
      (opts.foldl applyOpt c).pid = c.pid ∧
      (opts.foldl applyOpt c).servers = c.servers ∧
      (opts.foldl applyOpt c).doneChan = c.doneChan := by
  induction opts with
  | nil => intro c; exact ⟨rfl, rfl, rfl, rfl, rfl⟩
  | cons o rest ih =>
    intro c
    have h := ih (applyOpt c o)
    cases o <;> simpa [applyOpt] using h

/-- A supervisor built by New starts in the zero-value state Running. -/
theorem New_state (opts : List ContOpt) (a0 cw : String) (p : Nat) :
    (New opts a0 cw p).state = ContState.Running := by
  have h := (foldl_applyOpt_fields opts
    { name := a0, pid := p, child := 0, pidfile := "", cwd := cw,
      servers := [], state := contStateZero, doneChan := Chan.nilChan }).1
  unfold New
  dsimp only
  split <;> simpa [contStateZero] using h

/-- A supervisor built by New starts with the zero-value child pid 0. -/
theorem New_child (opts : List ContOpt) (a0 cw : String) (p : Nat) :
    (New opts a0 cw p).child = 0 := by
  have h := (foldl_applyOpt_fields opts
    { name := a0, pid := p, child := 0, pidfile := "", cwd := cw,
      servers := [], state := contStateZero, doneChan := Chan.nilChan }).2.1
  unfold New
  dsimp only
  split <;> simpa using h

/-- When every registration has a live listener, the close loop closes
them all in registration order, emitting one close event per index. -/
theorem closeLisGo_eq (ss : List ContServer) : ∀ i : Nat,
    (∀ s ∈ ss, s.hasLis = true) →
    closeLisGo i ss = .ok ((List.range' i ss.length).map Event.lisClose) := by
  induction ss with
  | nil => intro i _; simp [closeLisGo]
  | cons s rest ih =>
    intro i h
    have hs : s.hasLis = true := h s (List.mem_cons_self _ _)
    have hr := ih (i + 1) (fun x hx => h x (List.mem_cons_of_mem _ hx))
    simp [closeLisGo, hs, hr, List.range'_succ]

/-- A fan-out over an empty result list invokes nothing. -/
theorem invokedCount_nil : invokedCount [] = 0 := rfl

/-- A failing head short-circuits: only the first method is invoked. -/
theorem invokedCount_cons_some (e : GoErr) (t : List (Option GoErr)) :
    invokedCount (some e :: t) = 1 := by
  have h : ((some e :: t).takeWhile (fun b => b.isNone)).length = 0 := by
    simp [List.takeWhile_cons]
  unfold invokedCount
  rw [h, if_neg (by simp)]

/-- A succeeding head is invoked and the fan-out continues. -/
theorem invokedCount_cons_none (t : List (Option GoErr)) :
    invokedCount (none :: t) = invokedCount t + 1 := by
  unfold invokedCount
  rw [List.takeWhile_cons]
  simp only [Option.isNone_none, if_true, List.length_cons]
  by_cases h : (t.takeWhile (fun b => b.isNone)).length = t.length
  · rw [if_pos (by omega), if_pos h]
  · rw [if_neg (by omega), if_neg h]

/-- The Stop fan-out invokes exactly the servers up to and including the
first failing one, in registration order, and yields the first error. -/
theorem stopGo_eq (ss : List ContServer) : ∀ i : Nat,
    stopGo i ss =
      ((List.range' i
          (invokedCount (ss.map fun s => s.srv.stopErr))).map Event.srvStop,
        (ss.map fun s => s.srv.stopErr).findSome? id) := by
  induction ss with
  | nil => intro i; simp [stopGo, invokedCount]
  | cons s rest ih =>
    intro i
    cases h : s.srv.stopErr with
    | some e =>
      simp [stopGo, h, invokedCount_cons_some, List.range'_succ]
    | none =>
      simp [stopGo, h, invokedCount_cons_none, List.range'_succ, ih (i + 1)]

/-- The GracefulStop fan-out mirrors the Stop fan-out. -/
theorem gracefulGo_eq (ss : List ContServer) : ∀ i : Nat,
    gracefulGo i ss =
      ((List.range' i
          (invokedCount (ss.map fun s => s.srv.gracefulStopErr))).map
            Event.srvGracefulStop,
        (ss.map fun s => s.srv.gracefulStopErr).findSome? id) := by
  induction ss with
  | nil => intro i; simp [gracefulGo, invokedCount]
  | cons s rest ih =>
    intro i
    cases h : s.srv.gracefulStopErr with
    | some e =>
      simp [gracefulGo, h, invokedCount_cons_some, List.range'_succ]
    | none =>
      simp [gracefulGo, h, invokedCount_cons_none, List.range'_succ, ih (i + 1)]

/-- The bind loop never uninstalls a listener: if every registration had
its listener installed before, the same holds after, whatever the bind
results were. -/
theorem serveGo_hasLis (f : ListenOn → Option GoErr) :
    ∀ ss : List ContServer, (∀ s ∈ ss, s.hasLis = true) →
      ∀ s ∈ (serveGo f ss).1, s.hasLis = true := by
  intro ss
  induction ss with
  | nil => intro _ s hs; simp [serveGo] at hs
  | cons a rest ih =>
    intro h s hs
    cases hf : f a.listenOn with
    | some e =>
      simp only [serveGo, hf] at hs
      exact h s hs
    | none =>
      simp only [serveGo, hf] at hs
      rcases List.mem_cons.mp hs with rfl | hmem
      · rfl
      · exact ih (fun x hx => h x (List.mem_cons_of_mem _ hx)) s hmem

/-- upgrade touches only the child field (and the filesystem): the state,
done channel, servers, pid file path and pid survive it. -/
theorem upgrade_fields (env : Env) (c : Cont) (fs : FS) :
    (Cont.upgrade env c fs).1.state = c.state ∧
    (Cont.upgrade env c fs).1.doneChan = c.doneChan ∧
    (Cont.upgrade env c fs).1.servers = c.servers ∧
    (Cont.upgrade env c fs).1.pidfile = c.pidfile ∧
    (Cont.upgrade env c fs).1.pid = c.pid := by
  unfold Cont.upgrade
  cases h : env.startProcess <;> simp [h]

/-- The USR1 re-listen step: the serve pass followed by the unconditional
assignment of Running produces the supervisor with a fresh open done
channel, the re-bound server list, and state Running, whether or not some
bind failed (the returned error is discarded at the call site). -/
theorem serve_then_running (env : Env) (c : Cont) :
    { (Cont.serve env c).1 with state := ContState.Running } =
      { c with
          doneChan := Chan.opened
          servers := (serveGo env.listen c.servers).1
          state := ContState.Running } := by
  unfold Cont.serve
  cases h : (serveGo env.listen c.servers).2 <;> simp [h]

/-- When the done channel is open, stop closes it, fans Stop out over the
servers and yields the first error; the state becomes Stopped exactly
when no Stop failed. -/
theorem stop_eq_of_open (c : Cont) (hd : c.doneChan = Chan.opened) :
    c.stop =
      (match (c.servers.map fun s => s.srv.stopErr).findSome? id with
        | some e => .ok ({ c with doneChan := Chan.closed },
            Event.doneSignal ::
              (List.range' 0
                (invokedCount (c.servers.map fun s => s.srv.stopErr))).map
                  Event.srvStop, some e)
        | none => .ok
            ({ c with doneChan := Chan.closed, state := ContState.Stopped },
              Event.doneSignal ::
                (List.range' 0
                  (invokedCount (c.servers.map fun s => s.srv.stopErr))).map
                    Event.srvStop, none)) := by
  unfold Cont.stop
  rw [hd]
  cases hf : (c.servers.map fun s => s.srv.stopErr).findSome? id <;>
    simp [Chan.close, stopGo_eq, hf]

/-- When the done channel is open, gracefulStop closes it, fans
GracefulStop out over the servers and yields the first error; the state
becomes Stopped exactly when no GracefulStop failed. -/
theorem gracefulStop_eq_of_open (c : Cont) (hd : c.doneChan = Chan.opened) :
    c.gracefulStop =
      (match (c.servers.map fun s => s.srv.gracefulStopErr).findSome? id with
        | some e => .ok ({ c with doneChan := Chan.closed },
            Event.doneSignal ::
              (List.range' 0
                (invokedCount
                  (c.servers.map fun s => s.srv.gracefulStopErr))).map
                    Event.srvGracefulStop, some e)
        | none => .ok
            ({ c with doneChan := Chan.closed, state := ContState.Stopped },
              Event.doneSignal ::
                (List.range' 0
                  (invokedCount
                    (c.servers.map fun s => s.srv.gracefulStopErr))).map
                      Event.srvGracefulStop, none)) := by
  unfold Cont.gracefulStop
  rw [hd]
  cases hf : (c.servers.map fun s => s.srv.gracefulStopErr).findSome? id <;>
    simp [Chan.close, gracefulGo_eq, hf]

/-- Runs of the signal loop over USR1/USR2-only signal queues: the loop
never returns and never panics, the invariant survives, the pid-file path
and pid are untouched, the final state is the initial one flipped once
per USR1, and when no USR2 occurred the filesystem is untouched. -/
theorem loop_usr12 (env : Env) (sigs : List Sig) :
    ∀ (c : Cont) (fs : FS), GoodCont c →
      (∀ s ∈ sigs, s = Sig.usr1 ∨ s = Sig.usr2) →
      ∃ c' fs', serveLoop env c fs sigs = LoopResult.waiting c' fs' ∧
        GoodCont c' ∧ c'.pidfile = c.pidfile ∧ c'.pid = c.pid ∧
        c'.state = (if sigs.count Sig.usr1 % 2 = 0 then c.state
          else flipState c.state) ∧
        (sigs.count Sig.usr2 = 0 → fs' = fs) := by
  induction sigs with
  | nil =>
    intro c fs hg _
    exact ⟨c, fs, rfl, hg, rfl, rfl, by simp, fun _ => rfl⟩
  | cons sig rest ih =>
    intro c fs hg hs
    have hrest : ∀ s ∈ rest, s = Sig.usr1 ∨ s = Sig.usr2 :=
      fun s h => hs s (List.mem_cons_of_mem _ h)
    rcases hs sig (List.mem_cons_self _ _) with h1 | h2
    · subst h1
      obtain ⟨hsd, hlis⟩ := hg
      rcases hsd with ⟨hR, hD⟩ | ⟨hR, hD⟩
      · -- state Running: USR1 toggles listening off
        have hcl : Cont.closeListeners { c with state := ContState.Ready } =
            .ok ({ c with state := ContState.Ready, doneChan := Chan.closed },
              Event.doneSignal ::
                (List.range' 0 c.servers.length).map Event.lisClose) := by
          unfold Cont.closeListeners
          simp [hD, Chan.close, closeLisGo_eq c.servers 0 hlis]
        have hstep : serveLoop env c fs (Sig.usr1 :: rest) =
            serveLoop env
              { c with state := ContState.Ready, doneChan := Chan.closed }
              fs rest := by
          simp [serveLoop, hR, hcl]
        obtain ⟨c', fs', heq, hg', hpf, hpid, hst, hfs⟩ :=
          ih { c with state := ContState.Ready, doneChan := Chan.closed } fs
            ⟨Or.inr ⟨rfl, rfl⟩, hlis⟩ hrest
        refine ⟨c', fs', by rw [hstep, heq], hg', hpf, hpid, ?_, ?_⟩
        · rw [hst, hR]
          have hc : (Sig.usr1 :: rest).count Sig.usr1 =
              rest.count Sig.usr1 + 1 := by simp
          rw [hc]
          rcases Nat.mod_two_eq_zero_or_one (rest.count Sig.usr1) with h | h <;>
            simp [h, Nat.add_mod, flipState]
        · intro h0
          have hc2 : rest.count Sig.usr2 = 0 := by simpa using h0
          exact hfs hc2
      · -- state Ready: USR1 re-listens and serves again
        have hne : ¬ c.state = ContState.Running := by rw [hR]; simp
        have hstep : serveLoop env c fs (Sig.usr1 :: rest) =
            serveLoop env
              { c with
                  doneChan := Chan.opened
                  servers := (serveGo env.listen c.servers).1
                  state := ContState.Running } fs rest := by
          simp [serveLoop, hne, hR, serve_then_running]
        obtain ⟨c', fs', heq, hg', hpf, hpid, hst, hfs⟩ :=
          ih { c with
                doneChan := Chan.opened
                servers := (serveGo env.listen c.servers).1
                state := ContState.Running } fs
            ⟨Or.inl ⟨rfl, rfl⟩, serveGo_hasLis env.listen c.servers hlis⟩ hrest
        refine ⟨c', fs', by rw [hstep, heq], hg', hpf, hpid, ?_, ?_⟩
        · rw [hst, hR]
          have hc : (Sig.usr1 :: rest).count Sig.usr1 =
              rest.count Sig.usr1 + 1 := by simp
          rw [hc]
          rcases Nat.mod_two_eq_zero_or_one (rest.count Sig.usr1) with h | h <;>
            simp [h, Nat.add_mod, flipState]
        · intro h0
          have hc2 : rest.count Sig.usr2 = 0 := by simpa using h0
          exact hfs hc2
    · subst h2
      obtain ⟨hu1, hu2, hu3, hu4, hu5⟩ := upgrade_fields env c fs
      have hgu : GoodCont (Cont.upgrade env c fs).1 := by
        constructor
        · rw [hu1, hu2]; exact hg.1
        · rw [hu3]; exact hg.2
      obtain ⟨c', fs', heq, hg', hpf, hpid, hst, hfs⟩ :=
        ih (Cont.upgrade env c fs).1 (Cont.upgrade env c fs).2.1 hgu hrest
      have hstep : serveLoop env c fs (Sig.usr2 :: rest) =
          serveLoop env (Cont.upgrade env c fs).1
            (Cont.upgrade env c fs).2.1 rest := by
        simp [serveLoop]
      refine ⟨c', fs', by rw [hstep, heq], hg',
        by rw [hpf, hu4], by rw [hpid, hu5], ?_, ?_⟩
      · rw [hst, hu1]
        have hc : (Sig.usr2 :: rest).count Sig.usr1 = rest.count Sig.usr1 := by
          simp
        rw [hc]
      · intro h0
        have hc : (Sig.usr2 :: rest).count Sig.usr2 =
            rest.count Sig.usr2 + 1 := by simp
        rw [hc] at h0
        exact absurd h0 (by simp)

/-- C1: the code discards the bind error of the initial serve pass.  On a
supervisor with one registration whose bind fails, the private serve pass
does return the bind error, yet the public Serve neither returns it nor
any other error: it enters the signal loop, and the supervisor reports
state Running (the zero value) even though no listener was bound. -/
theorem c1_initial_bind_error_swallowed :
    Cont.Serve envBindFail c1Cont [] [] =
      ServeResult.loop (LoopResult.waiting
        { c1Cont with doneChan := Chan.opened } [("/w/app.pid", "42")]) ∧
    (Cont.serve envBindFail c1Cont).2 =
      some "listen tcp :8000: bind: address already in use" ∧
    Cont.Status { c1Cont with doneChan := Chan.opened } =
      ContState.Running := by
  decide

/-- C2 counterexample: TERM does not stop cleanly from every state.  In
state Ready the done channel is already closed, so stop's close panics;
and when a server's Stop fails, serve() still returns but the state stays
Running, not Stopped. -/
theorem c2_counterexample :
    serveLoop envOk readyCont fs0 [Sig.term] =
      LoopResult.panicked "close of closed channel" ∧
    serveLoop envOk errStopCont fs0 [Sig.term] =
      LoopResult.returned { errStopCont with doneChan := Chan.closed }
        fs0 [] ∧
    Cont.Status { errStopCont with doneChan := Chan.closed } ≠
      ContState.Stopped := by
  decide

/-- C2 (amended): from any state whose done channel is open (as in
Running) and whose servers' Stop methods all succeed, receiving TERM runs
the stop fan-out to completion, makes serve() return, and leaves the
post-state Stopped. -/
theorem c2_term_stops_and_returns (env : Env) (c : Cont) (fs : FS)
    (rest : List Sig) (hd : c.doneChan = Chan.opened)
    (hall : ∀ s ∈ c.servers, s.srv.stopErr = none) :
    serveLoop env c fs (Sig.term :: rest) =
      LoopResult.returned
        { c with doneChan := Chan.closed, state := ContState.Stopped }
        fs rest := by
  have hf : (c.servers.map fun s => s.srv.stopErr).findSome? id = none := by
    rw [List.findSome?_eq_none_iff]
    intro x hx
    obtain ⟨s, hsm, rfl⟩ := List.mem_map.mp hx
    simpa using hall s hsm
  simp [serveLoop, stop_eq_of_open c hd, hf]

/-- C2 witness: a Running supervisor with one healthy server receiving
TERM returns from serve() in state Stopped. -/
theorem c2_witness :
    serveLoop envOk runningCont fs0 [Sig.term] =
      LoopResult.returned
        { runningCont with
            doneChan := Chan.closed
            state := ContState.Stopped } fs0 [] :=
  c2_term_stops_and_returns envOk runningCont fs0 [] rfl (by decide)

/-- C3 counterexample: after an upgrade attempt whose fork-exec failed
the state is unchanged (Running) but the pid file no longer exists at
its canonical path, because upgrade renamed it to pidfile.old before
fork-exec and never renamed it back. -/
theorem c3_counterexample :
    Cont.Serve envForkFail c3Cont [] [Sig.usr2] =
      ServeResult.loop (LoopResult.waiting
        { c3Cont with doneChan := Chan.opened, state := ContState.Running }
        [("/w/app.pid.old", "42")]) ∧
    Cont.Status
      { c3Cont with doneChan := Chan.opened, state := ContState.Running } =
      ContState.Running ∧
    FS.lookup [("/w/app.pid.old", "42")]
      (Cont.pidfile
        { c3Cont with doneChan := Chan.opened, state := ContState.Running }) =
      none := by
  decide

/-- C3 (amended): as long as no upgrade-related signal (USR2, HUP, CHLD)
and no stop has been processed, the invariant does hold: over any
USR1-only signal sequence from a good Running or Ready configuration
whose pid file names the current pid, the state stays in Running or
Ready and the pid file still exists and names the current pid. -/
theorem c3_pidfile_invariant_no_upgrade (env : Env) (c : Cont) (fs : FS)
    (sigs : List Sig) (hg : GoodCont c)
    (hfs : FS.lookup fs c.pidfile = some (toString c.pid))
    (hs : ∀ s ∈ sigs, s = Sig.usr1) :
    ∃ c' fs', serveLoop env c fs sigs = LoopResult.waiting c' fs' ∧
      (c'.state = ContState.Running ∨ c'.state = ContState.Ready) ∧
      FS.lookup fs' c'.pidfile = some (toString c'.pid) := by
  obtain ⟨c', fs', heq, hg', hpf, hpid, _, hffs⟩ :=
    loop_usr12 env sigs c fs hg (fun s h => Or.inl (hs s h))
  have hcnt : sigs.count Sig.usr2 = 0 := by
    rw [List.count_eq_zero]
    intro hmem
    exact absurd (hs _ hmem) (by simp)
  refine ⟨c', fs', heq, ?_, ?_⟩
  · rcases hg'.1 with ⟨h, _⟩ | ⟨h, _⟩
    · exact Or.inl h
    · exact Or.inr h
  · rw [hffs hcnt, hpf, hpid]
    exact hfs

/-- C3 witness: one USR1 toggle preserves the pid-file invariant. -/
theorem c3_witness :
    ∃ c' fs', serveLoop envOk runningCont fs0 [Sig.usr1] =
        LoopResult.waiting c' fs' ∧
      (c'.state = ContState.Running ∨ c'.state = ContState.Ready) ∧
      FS.lookup fs' c'.pidfile = some (toString c'.pid) :=
  c3_pidfile_invariant_no_upgrade envOk runningCont fs0 [Sig.usr1]
    (by exact ⟨Or.inl ⟨rfl, rfl⟩, by decide⟩) (by decide) (by decide)

/-- C4: in each of the three transitions that close listeners — stop,
graceful stop and the USR1 toggle's closeListeners — the done channel is
signalled strictly before any listener is closed: the done signal is the
first emitted event and occurs nowhere later in the trace; and an accept
loop that fails after the signal observes the closed channel and
suppresses (does not log) its error. -/
theorem c4_done_before_listener_close (c : Cont)
    (hd : c.doneChan = Chan.opened)
    (hl : ∀ s ∈ c.servers, s.hasLis = true) :
    (∃ c2, c.closeListeners = Except.ok (c2,
      Event.doneSignal ::
        (List.range' 0 c.servers.length).map Event.lisClose)) ∧
    (∃ r, c.stop = Except.ok r ∧ r.2.1.head? = some Event.doneSignal ∧
      ∀ e ∈ r.2.1.tail, e ≠ Event.doneSignal) ∧
    (∃ r, c.gracefulStop = Except.ok r ∧
      r.2.1.head? = some Event.doneSignal ∧
      ∀ e ∈ r.2.1.tail, e ≠ Event.doneSignal) ∧
    ∀ e : GoErr, acceptLoopLogs Chan.closed (some e) = false := by
  refine ⟨?_, ?_, ?_, fun e => rfl⟩
  · refine ⟨{ c with doneChan := Chan.closed }, ?_⟩
    unfold Cont.closeListeners
    simp [hd, Chan.close, closeLisGo_eq c.servers 0 hl]
  · rw [stop_eq_of_open c hd]
    cases hf : (c.servers.map fun s => s.srv.stopErr).findSome? id with
    | some e =>
      refine ⟨_, rfl, rfl, ?_⟩
      intro ev hev
      simp only [List.tail_cons] at hev
      obtain ⟨j, _, rfl⟩ := List.mem_map.mp hev
      simp
    | none =>
      refine ⟨_, rfl, rfl, ?_⟩
      intro ev hev
      simp only [List.tail_cons] at hev
      obtain ⟨j, _, rfl⟩ := List.mem_map.mp hev
      simp
  · rw [gracefulStop_eq_of_open c hd]
    cases hf : (c.servers.map fun s => s.srv.gracefulStopErr).findSome? id with
    | some e =>
      refine ⟨_, rfl, rfl, ?_⟩
      intro ev hev
      simp only [List.tail_cons] at hev
      obtain ⟨j, _, rfl⟩ := List.mem_map.mp hev
      simp
    | none =>
      refine ⟨_, rfl, rfl, ?_⟩
      intro ev hev
      simp only [List.tail_cons] at hev
      obtain ⟨j, _, rfl⟩ := List.mem_map.mp hev
      simp

/-- C4 witness: the ordering facts at a concrete Running supervisor. -/
theorem c4_witness :
    (∃ c2, runningCont.closeListeners = Except.ok (c2,
      Event.doneSignal ::
        (List.range' 0 runningCont.servers.length).map Event.lisClose)) ∧
    (∃ r, runningCont.stop = Except.ok r ∧
      r.2.1.head? = some Event.doneSignal ∧
      ∀ e ∈ r.2.1.tail, e ≠ Event.doneSignal) ∧
    (∃ r, runningCont.gracefulStop = Except.ok r ∧
      r.2.1.head? = some Event.doneSignal ∧
      ∀ e ∈ r.2.1.tail, e ≠ Event.doneSignal) ∧
    ∀ e : GoErr, acceptLoopLogs Chan.closed (some e) = false :=
  c4_done_before_listener_close runningCont rfl (by decide)

/-- C5: over any signal sequence of USR1 and USR2 only, starting from a
good Running configuration, the loop neither returns nor panics; each
USR1 flips Running and Ready and each USR2 leaves the state unchanged, so
the final state is Running exactly when the number of USR1 signals is
even, and is always Running or Ready. -/
theorem c5_usr_toggle_alternation (env : Env) (c : Cont) (fs : FS)
    (sigs : List Sig) (hg : GoodCont c)
    (hrun : c.state = ContState.Running)
    (hs : ∀ s ∈ sigs, s = Sig.usr1 ∨ s = Sig.usr2) :
    ∃ c' fs', serveLoop env c fs sigs = LoopResult.waiting c' fs' ∧
      c'.state = (if sigs.count Sig.usr1 % 2 = 0 then ContState.Running
        else ContState.Ready) ∧
      (c'.state = ContState.Running ∨ c'.state = ContState.Ready) := by
  obtain ⟨c', fs', heq, _, _, _, hst, _⟩ := loop_usr12 env sigs c fs hg hs
  rw [hrun] at hst
  have hst2 : c'.state = (if sigs.count Sig.usr1 % 2 = 0 then
      ContState.Running else ContState.Ready) := by
    simpa [flipState] using hst
  refine ⟨c', fs', heq, hst2, ?_⟩
  by_cases h : sigs.count Sig.usr1 % 2 = 0
  · left; rw [hst2]; simp [h]
  · right; rw [hst2]; simp [h]

/-- C5 witness: two USR1 toggles with a USR2 in between end Running. -/
theorem c5_witness :
    ∃ c' fs',
      serveLoop envOk runningCont fs0 [Sig.usr1, Sig.usr2, Sig.usr1] =
        LoopResult.waiting c' fs' ∧
      c'.state =
        (if [Sig.usr1, Sig.usr2, Sig.usr1].count Sig.usr1 % 2 = 0
          then ContState.Running else ContState.Ready) ∧
      (c'.state = ContState.Running ∨ c'.state = ContState.Ready) :=
  c5_usr_toggle_alternation envOk runningCont fs0 _
    (by exact ⟨Or.inl ⟨rfl, rfl⟩, by decide⟩) rfl (by decide)

/-- C6: stop and gracefulStop first signal the done channel, then invoke
the matching stop method on the servers in registration order up to and
including the first failing one; the remaining servers are skipped, and
the first error (none when all succeed) is the returned error. -/
theorem c6_stopall_order_and_shortcircuit (c : Cont)
    (hd : c.doneChan = Chan.opened) :
    (∃ c2, c.stop = Except.ok (c2,
      Event.doneSignal ::
        (List.range' 0
          (invokedCount (c.servers.map fun s => s.srv.stopErr))).map
            Event.srvStop,
      (c.servers.map fun s => s.srv.stopErr).findSome? id)) ∧
    (∃ c2, c.gracefulStop = Except.ok (c2,
      Event.doneSignal ::
        (List.range' 0
          (invokedCount
            (c.servers.map fun s => s.srv.gracefulStopErr))).map
              Event.srvGracefulStop,
      (c.servers.map fun s => s.srv.gracefulStopErr).findSome? id)) := by
  constructor
  · rw [stop_eq_of_open c hd]
    cases hf : (c.servers.map fun s => s.srv.stopErr).findSome? id <;>
      exact ⟨_, rfl⟩
  · rw [gracefulStop_eq_of_open c hd]
    cases hf : (c.servers.map fun s => s.srv.gracefulStopErr).findSome? id <;>
      exact ⟨_, rfl⟩

/-- C6 witness: the fan-out facts at a supervisor whose single server
fails its Stop method. -/
theorem c6_witness :
    (∃ c2, errStopCont.stop = Except.ok (c2,
      Event.doneSignal ::
        (List.range' 0
          (invokedCount (errStopCont.servers.map fun s => s.srv.stopErr))).map
            Event.srvStop,
      (errStopCont.servers.map fun s => s.srv.stopErr).findSome? id)) ∧
    (∃ c2, errStopCont.gracefulStop = Except.ok (c2,
      Event.doneSignal ::
        (List.range' 0
          (invokedCount
            (errStopCont.servers.map fun s => s.srv.gracefulStopErr))).map
              Event.srvGracefulStop,
      (errStopCont.servers.map fun s => s.srv.gracefulStopErr).findSome? id)) :=
  c6_stopall_order_and_shortcircuit errStopCont rfl

/-- C7: when fork-exec of the successor fails, the signal handler logs
the error and continues with the supervisor completely unchanged: on HUP
the graceful stop is skipped and serve() does not return, and on USR2 no
child is recorded; only the filesystem may differ (the pid-file rename
had already been attempted). -/
theorem c7_failed_upgrade_state_unchanged (env : Env) (e : GoErr)
    (he : env.startProcess = .error e) (c : Cont) (fs : FS)
    (rest : List Sig) :
    (∃ fs2, serveLoop env c fs (Sig.hup :: rest) =
      serveLoop env c fs2 rest) ∧
    (∃ fs2, serveLoop env c fs (Sig.usr2 :: rest) =
      serveLoop env c fs2 rest) := by
  have hu1 : (Cont.upgrade env c fs).1 = c := by
    unfold Cont.upgrade; rw [he]
  have hu2 : (Cont.upgrade env c fs).2.2 = some e := by
    unfold Cont.upgrade; rw [he]
  constructor
  · exact ⟨(Cont.upgrade env c fs).2.1, by simp [serveLoop, hu2, hu1]⟩
  · exact ⟨(Cont.upgrade env c fs).2.1, by simp [serveLoop, hu1]⟩

/-- C7 witness: a failed HUP and a failed USR2 on a concrete supervisor
leave it in the loop with its state untouched. -/
theorem c7_witness :
    (∃ fs2, serveLoop envForkFail runningCont fs0 [Sig.hup] =
      serveLoop envForkFail runningCont fs2 []) ∧
    (∃ fs2, serveLoop envForkFail runningCont fs0 [Sig.usr2] =
      serveLoop envForkFail runningCont fs2 []) :=
  c7_failed_upgrade_state_unchanged envForkFail
    "fork/exec ./app: no such file or directory" rfl runningCont fs0 []

/-- C8 counterexample: constructed without options with the invocation
name "./bin/app", the procname is "./bin/app" itself, not the executable
basename "app" that the spec claims. -/
theorem c8_counterexample :
    (New [] "./bin/app" "/work" 7).name ≠ basename "./bin/app" := by
  decide

/-- C8 (amended): without options the procname defaults to os.Args[0]
exactly as invoked (not its basename), the working directory defaults to
the current directory, and the pid-file path defaults to
`<cwd>/<os.Args[0]>.pid`. -/
theorem c8_defaults (a0 cw : String) (p : Nat) :
    (New [] a0 cw p).name = a0 ∧ (New [] a0 cw p).cwd = cw ∧
    (New [] a0 cw p).pidfile = cw ++ "/" ++ a0 ++ ".pid" :=
  ⟨rfl, rfl, rfl⟩

/-- C9: the SIGCHLD branch unconditionally waits on whatever pid the
child field holds — it may still be the zero value 0, since New leaves it
0 and nothing checks that a successor was ever spawned or that the exited
child is the recorded one — and then attempts to rename pidfile.old back
to pidfile, leaving the supervisor otherwise unchanged. -/
theorem c9_chld_waits_unconditionally (c : Cont) (fs : FS) (env : Env)
    (rest : List Sig) (opts : List ContOpt) (a0 cw : String) (p : Nat) :
    (c.handleChld fs).2.2 =
      [Event.waitChild c.child,
        Event.renameFile (c.pidfile ++ ".old") c.pidfile] ∧
    (c.handleChld fs).1 = c ∧
    serveLoop env c fs (Sig.chld :: rest) =
      serveLoop env c (c.handleChld fs).2.1 rest ∧
    (New opts a0 cw p).child = 0 :=
  ⟨rfl, rfl, rfl, New_child opts a0 cw p⟩

/-- C10: a freshly constructed supervisor already reports Running from
Status, whatever the options, because Running is the zero value of the
state enumeration and New never assigns the state field. -/
theorem c10_fresh_supervisor_running (opts : List ContOpt) (a0 cw : String)
    (p : Nat) :
    (New opts a0 cw p).Status = ContState.Running ∧
    contStateZero = ContState.Running :=
  ⟨New_state opts a0 cw p, rfl⟩

end Continuous
